import Mathlib

/-!
Verification of the audius-protocol per-user replication engine against its
natural-language specification.

The development shallowly embeds the relevant JavaScript sources:

* `src/creator-node/src/routes/nodeSync.js` — the `/export` route, the `/sync`
  route and the `_nodesync` import worker.  Stateful behaviour (redis locks,
  sequelize transactions, blob fetches) is embedded as an explicit event trace.
* `src/libs/src/services/creatorNode/CreatorNodeSelection.js` — the service
  selector `select` and the `CreatorNode` static endpoint-string helpers.

Machine integers in the sources are JavaScript numbers used only at integral
values (clocks, block numbers, HTTP statuses); they are embedded as `Int`/`Nat`.
Fallible routes return `Except`.
-/

namespace Audius

/-! ## JS endpoint-string helpers (CreatorNode.getPrimary / getSecondaries / buildEndpoint)

`endpoints.split(',')` and `[primary, ...secondaries].join()` are embedded on
`List Char`.  `join()` with no argument joins with `','`.  `''.split(',')`
yields `['']`, matching `splitOnChar` on `[]`. -/

/-- JS `String.prototype.split` with a single-character separator. -/
def splitOnChar (c : Char) : List Char → List (List Char)
  | [] => [[]]
  | x :: xs =>
    match splitOnChar c xs with
    | [] => [[]]
    | y :: ys => if x = c then [] :: y :: ys else (x :: y) :: ys

/-- JS `Array.prototype.join` with a single-character separator. -/
def joinChar (c : Char) : List (List Char) → List Char
  | [] => []
  | [x] => x
  | x :: y :: ys => x ++ c :: joinChar c (y :: ys)

/-- JS truthiness of an (optional) string: `undefined`, `null` and `''` are falsy. -/
def jsTruthy : Option String → Bool
  | none => false
  | some s => s ≠ ""

/-- JS `endpoints.split(',')` lifted to `String`. -/
def jsSplitComma (s : String) : List String :=
  (splitOnChar ',' s.data).map String.mk

/-- JS `array.join()` lifted to `String`. -/
def jsJoinComma (xs : List String) : String :=
  String.mk (joinChar ',' (xs.map String.data))

/-- Embeds `CreatorNode.getPrimary`: `endpoints ? endpoints.split(',')[0] : ''`. -/
def getPrimaryEndpoint (endpoints : Option String) : String :=
  if jsTruthy endpoints then (jsSplitComma (endpoints.getD "")).headD "" else ""

/-- Embeds `CreatorNode.getSecondaries`: `endpoints ? endpoints.split(',').slice(1) : []`. -/
def getSecondaryEndpoints (endpoints : Option String) : List String :=
  if jsTruthy endpoints then (jsSplitComma (endpoints.getD "")).drop 1 else []

/-- Embeds `CreatorNode.buildEndpoint`: `[primary, ...secondaries].join()`. -/
def buildEndpoint (primary : String) (secondaries : List String) : String :=
  jsJoinComma (primary :: secondaries)

/-! ## The `/export` route (nodeSync.js lines 24-152)

Database rows are embedded with the columns the route inspects
(`cnodeUserUUID`, `clock`); the remaining payload columns are passed through
unchanged by the route and do not affect control flow.  `findAll` with a
`clock` range `where`-clause and `ORDER BY clock ASC` is embedded as filtering
followed by a stable insertion sort on `clock`. -/

/-- A row of the `CNodeUsers` table (the columns `/export` reads). -/
structure CNodeUserRow where
  cnodeUserUUID : String
  walletPublicKey : String
  clock : Int
  latestBlockNumber : Int
  deriving Repr, DecidableEq

/-- A row of one of the content tables (`AudiusUsers`, `Tracks`, `Files`,
`ClockRecords`) projected to the columns the `/export` route inspects. -/
structure ContentRow where
  cnodeUserUUID : String
  clock : Int
  deriving Repr, DecidableEq

/-- The relational state the `/export` route reads. -/
structure ExportDb where
  cnodeUsers : List CNodeUserRow
  audiusUsers : List ContentRow
  tracks : List ContentRow
  files : List ContentRow
  clockRecords : List ContentRow
  deriving Repr, DecidableEq

/-- Insert a row into a clock-sorted list, keeping it sorted (stable). -/
def insertByClock (r : ContentRow) : List ContentRow → List ContentRow
  | [] => [r]
  | x :: xs => if r.clock ≤ x.clock then r :: x :: xs else x :: insertByClock r xs

/-- Embeds `ORDER BY clock ASC`. -/
def sortByClock (rs : List ContentRow) : List ContentRow :=
  rs.foldr insertByClock []

/-- Embeds `Model.findAll` with `cnodeUserUUID` in `uuids`, `clock` in `[lo, hi]`,
`ORDER BY clock ASC` (nodeSync.js lines 48-97). -/
def findAllInRange (uuids : List String) (lo hi : Int) (table : List ContentRow) :
    List ContentRow :=
  sortByClock (table.filter
    (fun r => uuids.contains r.cnodeUserUUID && decide (lo ≤ r.clock) && decide (r.clock ≤ hi)))

/-- The `clockInfo` object attached to each exported user (lines 114-118). -/
structure ClockInfo where
  requestedClockRangeMin : Int
  requestedClockRangeMax : Int
  localClockMax : Int
  deriving Repr, DecidableEq

/-- One entry of the returned `cnodeUsersDict` (lines 103-139). -/
structure ExportedUser where
  cnodeUserUUID : String
  walletPublicKey : String
  clock : Int
  latestBlockNumber : Int
  audiusUsers : List ContentRow
  tracks : List ContentRow
  files : List ContentRow
  clockRecords : List ContentRow
  clockInfo : ClockInfo
  deriving Repr, DecidableEq

inductive ExportError where
  | badRange
  deriving Repr, DecidableEq

/-- Query parameters of `/export`.  `clockRangeMin`/`clockRangeMax` hold the
`parseInt` result of the raw query value; `none` stands for a missing value or
a parse to `NaN`. -/
structure ExportQuery where
  walletPublicKeys : List String
  clockRangeMin : Option Int
  clockRangeMax : Option Int
  deriving Repr, DecidableEq

/-- Embeds `parseInt(req.query.clock_range_min) || 0` (line 33): `NaN` and `0` are
falsy, so a missing or zero value yields `0`. -/
def exportRequestedMin (q : ExportQuery) : Int := q.clockRangeMin.getD 0

/-- Embeds `requestedClockRangeMin + (maxExportClockValueRange - 1)` (line 34). -/
def exportMaxRequestedMax (maxExportClockValueRange : Int) (q : ExportQuery) : Int :=
  exportRequestedMin q + (maxExportClockValueRange - 1)

/-- Embeds `Math.min(parseInt(req.query.clock_range_max) || maxRequestedClockRangeMax,
maxRequestedClockRangeMax)` (line 35).  A parse of `0` is falsy and falls back
to the cap. -/
def exportEffectiveMax (maxExportClockValueRange : Int) (q : ExportQuery) : Int :=
  let cap := exportMaxRequestedMax maxExportClockValueRange q
  let parsed := match q.clockRangeMax with
    | none => cap
    | some v => if v = 0 then cap else v
  min parsed cap

/-- The `/export` route (nodeSync.js lines 24-152).  The single read
transaction cannot fail in this embedding, so the only error is the bad-range
rejection of line 36. -/
def exportRoute (maxExportClockValueRange : Int) (db : ExportDb) (q : ExportQuery) :
    Except ExportError (List ExportedUser) :=
  let requestedClockRangeMin := exportRequestedMin q
  let requestedClockRangeMax := exportEffectiveMax maxExportClockValueRange q
  if requestedClockRangeMax ≤ requestedClockRangeMin then
    .error .badRange
  else
    let users := db.cnodeUsers.filter (fun u => q.walletPublicKeys.contains u.walletPublicKey)
    let uuids := users.map (·.cnodeUserUUID)
    let audiusUsers := findAllInRange uuids requestedClockRangeMin requestedClockRangeMax db.audiusUsers
    let tracks := findAllInRange uuids requestedClockRangeMin requestedClockRangeMax db.tracks
    let files := findAllInRange uuids requestedClockRangeMin requestedClockRangeMax db.files
    let clockRecords := findAllInRange uuids requestedClockRangeMin requestedClockRangeMax db.clockRecords
    .ok (users.map (fun u =>
      { cnodeUserUUID := u.cnodeUserUUID
        walletPublicKey := u.walletPublicKey
        -- line 121-125: reset clock to requestedClockRangeMax when above the window
        clock := if u.clock > requestedClockRangeMax then requestedClockRangeMax else u.clock
        latestBlockNumber := u.latestBlockNumber
        audiusUsers := audiusUsers.filter (fun r => r.cnodeUserUUID == u.cnodeUserUUID)
        tracks := tracks.filter (fun r => r.cnodeUserUUID == u.cnodeUserUUID)
        files := files.filter (fun r => r.cnodeUserUUID == u.cnodeUserUUID)
        clockRecords := clockRecords.filter (fun r => r.cnodeUserUUID == u.cnodeUserUUID)
        clockInfo :=
          { requestedClockRangeMin := requestedClockRangeMin
            requestedClockRangeMax := requestedClockRangeMax
            localClockMax := u.clock } }))

/-! ## The `_nodesync` import worker (nodeSync.js lines 222-465)

The worker's stateful behaviour is embedded as an event trace: redis lock
operations, the sequelize transaction markers, the database writes issued
inside the transaction, and the `saveFileForMultihash` blob fetches.  The
trace order mirrors source order; inside one `Promise.all` batch the fetches
run concurrently, but no claim depends on intra-batch order, so the batch is
traced in list order. -/

/-- A fetched `ClockRecord` row from the export payload. -/
structure FetchedClockRecord where
  clock : Int
  deriving Repr, DecidableEq

/-- A fetched `Files` row, projected to the columns the import inspects
(`type`, `multihash`, `storagePath`, `fileName`); the remaining columns are
spread unchanged into the insert. -/
structure FetchedFile where
  multihash : String
  storagePath : String
  ftype : String
  fileName : Option String
  deriving Repr, DecidableEq

/-- One entry of `resp.data.cnodeUsers` as consumed by the import loop
(lines 292-450).  `tracks`/`audiusUsers` rows only flow into bulk inserts, so
they are carried as plain string payloads. -/
structure FetchedCNodeUser where
  cnodeUserUUID : String
  walletPublicKey : String
  clock : Int
  latestBlockNumber : Int
  createdAt : String
  clockRecords : List FetchedClockRecord
  audiusUsers : List String
  tracks : List String
  files : List FetchedFile
  deriving Repr, DecidableEq

/-- Events of one import run. -/
inductive Ev where
  | setLock (wallet : String)
  | removeLock (wallet : String)
  | beginTx
  | upsertCNodeUser (cnodeUserUUID walletPublicKey : String)
      (latestBlockNumber clock : Int) (createdAt : String)
  | bulkCreateClockRecords (records : List FetchedClockRecord)
  | saveBlob (multihash : String) (fileName : Option String)
  | bulkCreateFilesNonTrack (files : List FetchedFile)
  | bulkCreateTracks (tracks : List String)
  | bulkCreateFilesTrack (files : List FetchedFile)
  | bulkCreateAudiusUsers (users : List String)
  | commitTx
  | rollbackTx
  deriving Repr, DecidableEq

/-- The distinct throw sites of `_nodesync`, by source order. -/
inductive SyncError where
  | locked
  | exportFailed
  | malformedResponse
  | walletNotRequested
  | regression
  | nonContiguous
  | blobFetchFailed
  deriving Repr, DecidableEq

/-- The export response as consumed by `_nodesync` (lines 258-281).
`cnodeUsers = none` models a response without the `cnodeUsers` property;
`ipfsAddressesPresent = false` models a missing `ipfsIDObj.addresses`. -/
structure ExportResp where
  status : Nat
  cnodeUsers : Option (List FetchedCNodeUser)
  ipfsAddressesPresent : Bool
  deriving Repr, DecidableEq

/-- The environment of one `_nodesync` run: the redis lock state at entry, the
local `CNodeUser.clock` for the requested wallet (`none` when the row is
absent), the export response, whether each `saveFileForMultihash` succeeds
(keyed on multihash), and `models.File.TrackTypes`/`NonTrackTypes`. -/
structure SyncEnv where
  lockHeld : String → Bool
  localCNodeUserClock : Option Int
  resp : ExportResp
  fetchOk : String → Bool
  trackTypes : List String
  nonTrackTypes : List String

/-- The lock-acquisition loop (lines 233-240): for each wallet, throw if the
lock is held, otherwise take it.  Returns the events emitted and whether the
loop completed.  Keys set by earlier iterations are for other wallets, so
`getLock` sees the entry state. -/
def acquireLocks (held : String → Bool) : List String → List Ev × Bool
  | [] => ([], true)
  | w :: ws =>
    if held w then ([], false)
    else
      let r := acquireLocks held ws
      (Ev.setLock w :: r.1, r.2)

/-- Fetch a list of blobs in order (`saveFileForMultihash` targets, as
`(multihash, fileName)`); a failed fetch rejects the `Promise.all` and aborts
the remaining batches. -/
def fetchBlobs (fetchOk : String → Bool) : List (String × Option String) → List Ev × Bool
  | [] => ([], true)
  | (m, fn) :: rest =>
    if fetchOk m then
      let r := fetchBlobs fetchOk rest
      (Ev.saveBlob m fn :: r.1, r.2)
    else ([Ev.saveBlob m fn], false)

/-- Fetch targets of the non-track file loop (lines 395-409): directories are
skipped; dir-style images pass their `fileName` to the gateway path. -/
def nonTrackFetchTargets (files : List FetchedFile) : List (String × Option String) :=
  files.filterMap (fun f =>
    if f.ftype = "dir" then none
    else if f.ftype = "image" && f.fileName.isSome then some (f.multihash, f.fileName)
    else some (f.multihash, none))

/-- Embeds `redisLock.removeLock(redisKey)` as events (`redisKey` is the variable
left by the acquisition loop). -/
def unlockEvs (redisKey : Option String) : List Ev :=
  match redisKey with
  | some k => [Ev.removeLock k]
  | none => []

/-- The events of the catch handler (lines 442-449): roll back, release the
`redisKey` lock, rethrow. -/
def catchEvs (redisKey : Option String) : List Ev :=
  Ev.rollbackTx :: unlockEvs redisKey

/-- Lines 342-368: open the transaction, upsert the `CNodeUser` row, bulk
insert the clock records. -/
def txPrefix (u : FetchedCNodeUser) : List Ev :=
  [Ev.beginTx,
   Ev.upsertCNodeUser u.cnodeUserUUID u.walletPublicKey u.latestBlockNumber u.clock u.createdAt,
   Ev.bulkCreateClockRecords u.clockRecords]

/-- Lines 413-438: the four bulk inserts in source order, then the commit. -/
def txInserts (trackFiles nonTrackFiles : List FetchedFile) (u : FetchedCNodeUser) : List Ev :=
  [Ev.bulkCreateFilesNonTrack nonTrackFiles,
   Ev.bulkCreateTracks u.tracks,
   Ev.bulkCreateFilesTrack trackFiles,
   Ev.bulkCreateAudiusUsers u.audiusUsers,
   Ev.commitTx]

/-- The body of the `for (const fetchedCNodeUser of ...)` loop for one fetched
user (lines 292-449), as events plus an optional thrown error.  `redisKey` is
the variable of the acquisition loop, i.e. the key of the last requested
wallet. -/
def processUser (walletPublicKeys : List String) (localMaxClockVal : Int)
    (fetchOk : String → Bool) (trackTypes nonTrackTypes : List String)
    (redisKey : Option String) (u : FetchedCNodeUser) : List Ev × Option SyncError :=
  -- line 319: returned wallet must have been requested
  if ¬ walletPublicKeys.contains u.walletPublicKey then
    ([], some .walletNotRequested)
  -- line 331: regression
  else if u.clock < localMaxClockVal then
    ([], some .regression)
  -- line 333: already up to date, `continue`
  else if u.clock = localMaxClockVal then
    ([], none)
  -- line 337: `fetchedClockRecords[0] && fetchedClockRecords[0].clock !== localMaxClockVal + 1`
  else if (match u.clockRecords.head? with
           | some r => decide (r.clock ≠ localMaxClockVal + 1)
           | none => false) then
    ([], some .nonContiguous)
  else
    let trackFiles := u.files.filter (fun f => trackTypes.contains f.ftype)
    let nonTrackFiles := u.files.filter (fun f => nonTrackTypes.contains f.ftype)
    -- lines 381-389: fetch track file blobs
    let tf := fetchBlobs fetchOk (trackFiles.map (fun f => (f.multihash, (none : Option String))))
    if ¬ tf.2 then
      (txPrefix u ++ tf.1 ++ catchEvs redisKey, some .blobFetchFailed)
    else
      -- lines 392-411: fetch non-track file blobs
      let ntf := fetchBlobs fetchOk (nonTrackFetchTargets nonTrackFiles)
      if ¬ ntf.2 then
        (txPrefix u ++ tf.1 ++ ntf.1 ++ catchEvs redisKey, some .blobFetchFailed)
      else
        -- lines 413-439: bulk inserts in source order, commit, release redisKey
        (txPrefix u ++ tf.1 ++ ntf.1 ++ txInserts trackFiles nonTrackFiles u ++
          unlockEvs redisKey, none)

/-- The loop over `resp.data.cnodeUsers` (line 292); a throw aborts the loop. -/
def processUsers (walletPublicKeys : List String) (localMaxClockVal : Int)
    (fetchOk : String → Bool) (trackTypes nonTrackTypes : List String)
    (redisKey : Option String) : List FetchedCNodeUser → List Ev × Option SyncError
  | [] => ([], none)
  | u :: rest =>
    let r := processUser walletPublicKeys localMaxClockVal fetchOk trackTypes nonTrackTypes redisKey u
    match r.2 with
    | some e => (r.1, some e)
    | none =>
      let r' := processUsers walletPublicKeys localMaxClockVal fetchOk trackTypes nonTrackTypes redisKey rest
      (r.1 ++ r'.1, r'.2)

/-- Result of one `_nodesync` run: its event trace and the error it surfaced
(`errorObj`, or the exception thrown by the pre-`try` lock loop). -/
structure SyncRun where
  trace : List Ev
  result : Option SyncError
  deriving Repr, DecidableEq

/-- Embeds `_nodesync` (lines 222-465).  A held lock throws before the `try`, so the
`finally` release loop does not run on that path; every path that enters the
`try` ends with the `finally` loop releasing the lock of every requested
wallet (lines 454-461). -/
def nodesync (env : SyncEnv) (walletPublicKeys : List String) : SyncRun :=
  let acq := acquireLocks env.lockHeld walletPublicKeys
  if ¬ acq.2 then
    { trace := acq.1, result := some .locked }
  else
    let localMaxClockVal : Int := env.localCNodeUserClock.getD (-1)
    let redisKey := walletPublicKeys.getLast?
    let finallyEvs := walletPublicKeys.map Ev.removeLock
    if env.resp.status ≠ 200 then
      { trace := acq.1 ++ finallyEvs, result := some .exportFailed }
    else
      match env.resp.cnodeUsers with
      | none => { trace := acq.1 ++ finallyEvs, result := some .malformedResponse }
      | some fetchedUsers =>
        if ¬ env.resp.ipfsAddressesPresent then
          { trace := acq.1 ++ finallyEvs, result := some .malformedResponse }
        else
          let body := processUsers walletPublicKeys localMaxClockVal env.fetchOk
            env.trackTypes env.nonTrackTypes redisKey fetchedUsers
          { trace := acq.1 ++ body.1 ++ finallyEvs, result := body.2 }

/-! ### Observers on import traces -/

/-- The database-write events (rows written through the open transaction). -/
def isDbWrite : Ev → Bool
  | .upsertCNodeUser _ _ _ _ _ => true
  | .bulkCreateClockRecords _ => true
  | .bulkCreateFilesNonTrack _ => true
  | .bulkCreateTracks _ => true
  | .bulkCreateFilesTrack _ => true
  | .bulkCreateAudiusUsers _ => true
  | _ => false

def isSaveBlob : Ev → Bool
  | .saveBlob _ _ => true
  | _ => false

/-- Replay one event against `(committed writes, open transaction buffer)`:
writes inside an open transaction are buffered, `commitTx` applies the buffer
to the database, `rollbackTx` discards it. -/
def applyEv (st : List Ev × Option (List Ev)) (e : Ev) : List Ev × Option (List Ev) :=
  match e with
  | Ev.beginTx => (st.1, some [])
  | Ev.commitTx =>
    match st.2 with
    | some buf => (st.1 ++ buf, none)
    | none => (st.1, none)
  | Ev.rollbackTx => (st.1, none)
  | e =>
    match st.2 with
    | some buf => if isDbWrite e then (st.1, some (buf ++ [e])) else (st.1, some buf)
    | none => (st.1, none)

/-- The database writes a trace actually commits. -/
def appliedWrites (t : List Ev) : List Ev :=
  (t.foldl applyEv ([], none)).1

/-- One step of the lock observer for wallet `w`. -/
def lockStep (w : String) (held : Bool) (e : Ev) : Bool :=
  match e with
  | Ev.setLock w' => if w' = w then true else held
  | Ev.removeLock w' => if w' = w then false else held
  | _ => held

/-- Whether the wallet's sync lock is held after the trace (starting unheld). -/
def lockHeldAfter (t : List Ev) (w : String) : Bool :=
  t.foldl (lockStep w) false

/-- Every opened transaction is closed by a commit or a rollback. -/
def txBalanced (t : List Ev) : Bool :=
  t.count Ev.beginTx == t.count Ev.commitTx + t.count Ev.rollbackTx

/-- Step of the "blob fetch while a transaction is open" observer; the state
is `(transaction open, violation seen)`. -/
def openTxFetchStep (st : Bool × Bool) (e : Ev) : Bool × Bool :=
  match e with
  | Ev.beginTx => (true, st.2)
  | Ev.commitTx => (false, st.2)
  | Ev.rollbackTx => (false, st.2)
  | Ev.saveBlob _ _ => (st.1, st.2 || st.1)
  | _ => st

/-- Whether some blob fetch happens while a transaction is open. -/
def fetchDuringOpenTx (t : List Ev) : Bool :=
  (t.foldl openTxFetchStep (false, false)).2

/-- Step of the "blob fetch after a commit" observer; the state is
`(commit seen, violation seen)`. -/
def commitFetchStep (st : Bool × Bool) (e : Ev) : Bool × Bool :=
  match e with
  | Ev.commitTx => (true, st.2)
  | Ev.saveBlob _ _ => (st.1, st.2 || st.1)
  | _ => st

/-- Whether some blob fetch happens after a commit. -/
def fetchAfterCommit (t : List Ev) : Bool :=
  (t.foldl commitFetchStep (false, false)).2

/-- Step of the "blob fetch after a file/track/user row insert" observer. -/
def insertFetchStep (st : Bool × Bool) (e : Ev) : Bool × Bool :=
  match e with
  | Ev.bulkCreateFilesNonTrack _ => (true, st.2)
  | Ev.bulkCreateTracks _ => (true, st.2)
  | Ev.bulkCreateFilesTrack _ => (true, st.2)
  | Ev.bulkCreateAudiusUsers _ => (true, st.2)
  | Ev.saveBlob _ _ => (st.1, st.2 || st.1)
  | _ => st

/-- Whether some blob fetch happens after a file/track/user bulk insert. -/
def fetchAfterRowInsert (t : List Ev) : Bool :=
  (t.foldl insertFetchStep (false, false)).2

/-! ## The `/sync` route (nodeSync.js lines 158-202) -/

inductive RouteResult where
  | badRequest
  | serverError (e : SyncError)
  | success
  deriving Repr, DecidableEq

/-- Outcome of one `/sync` request: the HTTP-level result, the import work
performed synchronously, and the wallets left debounce-queued (the non
immediate path only schedules a timer and returns). -/
structure SyncRouteRun where
  response : RouteResult
  trace : List Ev
  scheduled : List String
  deriving Repr, DecidableEq

/-- The `/sync` route handler. -/
def syncRoute (env : SyncEnv) (wallets : List String) (immediate : Bool) : SyncRouteRun :=
  if wallets.length = 0 then
    { response := .badRequest, trace := [], scheduled := [] }
  else if wallets.length > 1 then
    { response := .badRequest, trace := [], scheduled := [] }
  else if immediate then
    let run := nodesync env wallets
    match run.result with
    | some e => { response := .serverError e, trace := run.trace, scheduled := [] }
    | none => { response := .success, trace := run.trace, scheduled := [] }
  else
    { response := .success, trace := [], scheduled := wallets }

/-! ## The service selector (CreatorNodeSelection.js)

`CreatorNodeSelection.select` overrides the parent's `select`; its filtering
helpers and the health-check sorter live outside the provided sources and are
modelled from the spec where noted. -/

structure SemVer where
  major : Nat
  minor : Nat
  patch : Nat
  deriving Repr, DecidableEq

/-- Modelled from the spec: `ethContracts.hasSameMajorAndMinorVersion` (not in
the sources) — "the returned version shares its major and minor with the
expected version". -/
def hasSameMajorAndMinorVersion (a b : SemVer) : Bool :=
  a.major == b.major && a.minor == b.minor

/-- The `{ isBehind, isConfigured }` sync status of a candidate. -/
structure SyncStatusResp where
  isBehind : Bool
  isConfigured : Bool
  deriving Repr, DecidableEq

/-- A health-check response: HTTP status, reported version, measured latency. -/
structure HealthResp where
  status : Nat
  version : SemVer
  responseTimeMs : Nat
  deriving Repr, DecidableEq

/-- Environment of one `select` invocation: the on-chain service list, the
expected version, the allow/deny lists, each candidate's sync status (`none`
models a failed request) and health response (`none` models no response), and
the replica-set size. -/
structure SelectEnv where
  services : List String
  currentVersion : SemVer
  whitelist : Option (List String)
  blacklist : Option (List String)
  syncStatus : String → Option SyncStatusResp
  health : String → Option HealthResp
  numberOfNodes : Nat

/-- Modelled from the spec: `ServiceSelection.filterToWhitelist` (not in the
sources) — "apply a caller-provided allow-list (if present)". -/
def filterToWhitelist (wl : List String) (services : List String) : List String :=
  services.filter (fun s => wl.contains s)

/-- Modelled from the spec: `ServiceSelection.filterFromBlacklist` (not in the
sources) — "then deny-list (if present)". -/
def filterFromBlacklist (bl : List String) (services : List String) : List String :=
  services.filter (fun s => ¬ bl.contains s)

/-- Embeds `_performSyncChecks` (CreatorNodeSelection.js lines 134-163): keep a
candidate iff its sync status was obtained and it is a first-time creator
(`isBehind && !isConfigured`) or an existing creator (`!isBehind &&
isConfigured`). -/
def performSyncChecks (st : String → Option SyncStatusResp) (services : List String) :
    List String :=
  services.filter (fun s =>
    match st s with
    | none => false
    | some r => (r.isBehind && !r.isConfigured) || (!r.isBehind && r.isConfigured))

/-- Sort order of health-checked candidates.  Modelled from the spec:
`timeRequestsAndSortByVersion` (not in the sources) sorts by "highest version
first, then lowest latency"; candidates without a response are placed last
(they are filtered out right after, so their position is immaterial). -/
def healthOrderLE (a b : String × Option HealthResp) : Bool :=
  match a.2, b.2 with
  | none, none => true
  | none, some _ => false
  | some _, none => true
  | some ra, some rb =>
    if ra.version = rb.version then ra.responseTimeMs ≤ rb.responseTimeMs
    else if ra.version.major ≠ rb.version.major then rb.version.major < ra.version.major
    else if ra.version.minor ≠ rb.version.minor then rb.version.minor < ra.version.minor
    else rb.version.patch < ra.version.patch

def insertHealthOrdered (x : String × Option HealthResp) :
    List (String × Option HealthResp) → List (String × Option HealthResp)
  | [] => [x]
  | y :: ys => if healthOrderLE x y then x :: y :: ys else y :: insertHealthOrdered x ys

def sortHealthOrdered (l : List (String × Option HealthResp)) :
    List (String × Option HealthResp) :=
  l.foldr insertHealthOrdered []

/-- Embeds `_performHealthChecks` (CreatorNodeSelection.js lines 170-235): sort the
health-checked candidates, keep those that responded with status `200` and a
version sharing major and minor with the expected version. -/
def performHealthChecks (currentVersion : SemVer) (health : String → Option HealthResp)
    (services : List String) : List String :=
  ((sortHealthOrdered (services.map (fun s => (s, health s)))).filter
    (fun p =>
      match p.2 with
      | none => false
      | some r => r.status == 200 && hasSameMajorAndMinorVersion currentVersion r.version)).map
    (·.1)

/-- The surviving candidate list after the allow-list, deny-list, sync-check
and health-check stages of `select` (lines 47-60). -/
def selectSurvivors (env : SelectEnv) (performSyncCheck : Bool) : List String :=
  let s1 := env.services
  let s2 := match env.whitelist with | some wl => filterToWhitelist wl s1 | none => s1
  let s3 := match env.blacklist with | some bl => filterFromBlacklist bl s2 | none => s2
  let s4 := if performSyncCheck then performSyncChecks env.syncStatus s3 else s3
  performHealthChecks env.currentVersion env.health s4

/-- Result of `select`: `primary = none` embeds the JS `undefined` produced by
`services[0]` on an empty list. -/
structure SelectResult where
  primary : Option String
  secondaries : List String
  deriving Repr, DecidableEq

/-- Embeds `CreatorNodeSelection.select` (lines 40-74): primary is `services[0]`,
secondaries are `services.slice(1).slice(0, numberOfNodes - 1)`.  The model
assumes `numberOfNodes ≥ 1` (it is the replica-set size, 3 in production), so
the JS `slice(0, -1)` corner of `numberOfNodes = 0` is out of scope. -/
def select (env : SelectEnv) (performSyncCheck : Bool) : SelectResult :=
  let services := selectSurvivors env performSyncCheck
  { primary := services.head?
    secondaries := (services.drop 1).take (env.numberOfNodes - 1) }

/-! ## Concrete instances used to instantiate the theorems -/

/-- A well-formed fetched user: clock records contiguous from `0` (the local
user is absent, so `localMaxClockVal = -1`), one track file, one dir-style
image file, one directory row. -/
def sampleUser : FetchedCNodeUser :=
  { cnodeUserUUID := "uuid-1"
    walletPublicKey := "0xabc"
    clock := 2
    latestBlockNumber := 7
    createdAt := "2020-01-01"
    clockRecords := [⟨0⟩, ⟨1⟩, ⟨2⟩]
    audiusUsers := ["meta-row"]
    tracks := ["track-row"]
    files := [⟨"QmTrack", "/file_storage/QmTrack", "track", none⟩,
              ⟨"QmImg", "/file_storage/QmImg", "image", some "pic.jpg"⟩,
              ⟨"QmDir", "/file_storage/QmDir", "dir", none⟩] }

/-- An environment whose export response carries `sampleUser`; no lock held,
no local user row, every blob fetch succeeds. -/
def sampleEnv : SyncEnv :=
  { lockHeld := fun _ => false
    localCNodeUserClock := none
    resp := { status := 200, cnodeUsers := some [sampleUser], ipfsAddressesPresent := true }
    fetchOk := fun _ => true
    trackTypes := ["track", "copy320"]
    nonTrackTypes := ["metadata", "image", "dir"] }

/-- A fetched user whose clock records start at `localMaxClockVal + 1 = 0` but
then jump from `0` to `2`: not a strict `+1` sequence. -/
def gapUser : FetchedCNodeUser :=
  { sampleUser with clock := 2, clockRecords := [⟨0⟩, ⟨2⟩] }

/-- Environment `sampleEnv` with `gapUser` in the export response. -/
def gapEnv : SyncEnv :=
  { sampleEnv with
    resp := { status := 200, cnodeUsers := some [gapUser], ipfsAddressesPresent := true } }

/-- Environment `sampleEnv` with a local clock ahead of the fetched user's clock. -/
def regressionEnv : SyncEnv :=
  { sampleEnv with localCNodeUserClock := some 5 }

/-- Environment `sampleEnv` with the local clock equal to the fetched user's clock. -/
def noopEnv : SyncEnv :=
  { sampleEnv with localCNodeUserClock := some 2 }

/-- A fetched user whose first clock record is `1`, above `localMaxClockVal + 1
= 0`. -/
def startGapUser : FetchedCNodeUser :=
  { sampleUser with clockRecords := [⟨1⟩, ⟨2⟩] }

/-- Environment `sampleEnv` with `startGapUser` in the export response. -/
def startGapEnv : SyncEnv :=
  { sampleEnv with
    resp := { status := 200, cnodeUsers := some [startGapUser], ipfsAddressesPresent := true } }

theorem splitOnChar_ne_nil (c : Char) (s : List Char) : splitOnChar c s ≠ [] := by
  cases s with
  | nil => simp [splitOnChar]
  | cons x xs =>
    simp only [splitOnChar]
    cases h : splitOnChar c xs with
    | nil => simp
    | cons y ys =>
      by_cases hx : x = c <;> simp [hx]

theorem splitOnChar_no_sep (c : Char) (s : List Char) (h : c ∉ s) :
    splitOnChar c s = [s] := by
  induction s with
  | nil => rfl
  | cons x xs ih =>
    simp only [List.mem_cons, not_or] at h
    simp only [splitOnChar, ih h.2]
    have hx : ¬ x = c := fun hxc => h.1 (hxc ▸ rfl)
    simp [hx]

theorem splitOnChar_append_no_sep (c : Char) (a s : List Char) (ha : c ∉ a) :
    splitOnChar c (a ++ s) =
      match splitOnChar c s with
      | [] => [a]
      | y :: ys => (a ++ y) :: ys := by
  induction a with
  | nil =>
    simp only [List.nil_append]
    cases h : splitOnChar c s with
    | nil => exact absurd h (splitOnChar_ne_nil c s)
    | cons y ys => simp
  | cons x xs ih =>
    simp only [List.mem_cons, not_or] at ha
    have hx : ¬ x = c := fun hxc => ha.1 (hxc ▸ rfl)
    cases h : splitOnChar c s with
    | nil => exact absurd h (splitOnChar_ne_nil c s)
    | cons y ys =>
      have ih2 : splitOnChar c (xs ++ s) = (xs ++ y) :: ys := by
        rw [ih ha.2, h]
      simp only [List.cons_append, splitOnChar, List.append_eq]
      rw [ih2]
      simp [hx]

theorem splitOnChar_joinChar (c : Char) (l : List (List Char)) (hne : l ≠ [])
    (h : ∀ e ∈ l, c ∉ e) : splitOnChar c (joinChar c l) = l := by
  induction l with
  | nil => exact absurd rfl hne
  | cons x xs ih =>
    cases xs with
    | nil =>
      simp only [joinChar]
      exact splitOnChar_no_sep c x (h x (List.mem_cons_self x []))
    | cons y ys =>
      have hx : c ∉ x := h x (List.mem_cons_self _ _)
      have hrest : ∀ e ∈ y :: ys, c ∉ e := fun e he => h e (List.mem_cons_of_mem _ he)
      have ihr := ih (by simp) hrest
      simp only [joinChar]
      rw [splitOnChar_append_no_sep c x _ hx]
      have hsplit : splitOnChar c (c :: joinChar c (y :: ys)) = [] :: (y :: ys) := by
        simp [splitOnChar, ihr]
      simp [hsplit]

theorem string_mk_data (s : String) : String.mk s.data = s := rfl

theorem joinChar_cons_ne_nil (c : Char) (x : List Char) (xs : List (List Char))
    (hx : x ≠ []) : joinChar c (x :: xs) ≠ [] := by
  cases xs <;> simp [joinChar, hx]

/-- C10: for every non-empty primary endpoint string `p` and secondary list
`s`, none containing a comma, `getPrimary (buildEndpoint p s) = p` and
`getSecondaries (buildEndpoint p s) = s`; a missing or empty endpoint string
yields the empty string and the empty list. -/
theorem endpoint_build_roundtrip (p : String) (s : List String)
    (hp : p ≠ "") (hpc : (',' : Char) ∉ p.data) (hs : ∀ x ∈ s, (',' : Char) ∉ x.data) :
    getPrimaryEndpoint (some (buildEndpoint p s)) = p ∧
    getSecondaryEndpoints (some (buildEndpoint p s)) = s ∧
    getPrimaryEndpoint none = "" ∧ getSecondaryEndpoints none = [] ∧
    getPrimaryEndpoint (some "") = "" ∧ getSecondaryEndpoints (some "") = [] := by
  have hpd : p.data ≠ [] := by
    intro h
    apply hp
    calc p = String.mk p.data := (string_mk_data p).symm
    _ = "" := by rw [h]
  have hne : buildEndpoint p s ≠ "" := by
    intro h
    have hd : (buildEndpoint p s).data = joinChar ',' (p.data :: s.map String.data) := rfl
    rw [h] at hd
    exact joinChar_cons_ne_nil ',' p.data (s.map String.data) hpd hd.symm
  have hmem : ∀ e ∈ (p.data :: s.map String.data), (',' : Char) ∉ e := by
    intro e he
    rcases List.mem_cons.mp he with rfl | he'
    · exact hpc
    · obtain ⟨x, hx, rfl⟩ := List.mem_map.mp he'
      exact hs x hx
  have hsplit : jsSplitComma (buildEndpoint p s) = p :: s := by
    show (splitOnChar ',' (joinChar ',' (p.data :: s.map String.data))).map String.mk = p :: s
    rw [splitOnChar_joinChar ',' _ (by simp) hmem]
    simp [string_mk_data, List.map_map, Function.comp_def]
  have htr : jsTruthy (some (buildEndpoint p s)) = true := by
    simp [jsTruthy, hne]
  refine ⟨?_, ?_, rfl, rfl, ?_, ?_⟩
  · simp [getPrimaryEndpoint, htr, hsplit]
  · simp [getSecondaryEndpoints, htr, hsplit]
  · simp [getPrimaryEndpoint, jsTruthy]
  · simp [getSecondaryEndpoints, jsTruthy]

/-- Witness for C10 at a concrete replica set. -/
theorem endpoint_build_roundtrip_witness :
    getPrimaryEndpoint (some (buildEndpoint "https://a" ["https://b", "https://c"])) =
      "https://a" ∧
    getSecondaryEndpoints (some (buildEndpoint "https://a" ["https://b", "https://c"])) =
      ["https://b", "https://c"] ∧
    getPrimaryEndpoint none = "" ∧ getSecondaryEndpoints none = [] ∧
    getPrimaryEndpoint (some "") = "" ∧ getSecondaryEndpoints (some "") = [] :=
  endpoint_build_roundtrip "https://a" ["https://b", "https://c"]
    (by decide) (by decide) (by decide)

theorem mem_insertByClock {a r : ContentRow} {l : List ContentRow} :
    a ∈ insertByClock r l ↔ a = r ∨ a ∈ l := by
  induction l with
  | nil => simp [insertByClock]
  | cons x xs ih =>
    by_cases h : r.clock ≤ x.clock
    · simp only [insertByClock, if_pos h, List.mem_cons]
    · simp only [insertByClock, if_neg h, List.mem_cons, ih]
      tauto

theorem pairwise_insertByClock (r : ContentRow) (l : List ContentRow)
    (h : l.Pairwise (fun a b => a.clock ≤ b.clock)) :
    (insertByClock r l).Pairwise (fun a b => a.clock ≤ b.clock) := by
  induction l with
  | nil => simp [insertByClock]
  | cons x xs ih =>
    rw [List.pairwise_cons] at h
    by_cases hc : r.clock ≤ x.clock
    · rw [insertByClock, if_pos hc, List.pairwise_cons]
      refine ⟨?_, List.pairwise_cons.mpr h⟩
      intro b hb
      rcases List.mem_cons.mp hb with rfl | hb'
      · exact hc
      · exact le_trans hc (h.1 b hb')
    · rw [insertByClock, if_neg hc, List.pairwise_cons]
      refine ⟨?_, ih h.2⟩
      intro b hb
      rcases mem_insertByClock.mp hb with rfl | hb'
      · exact le_of_not_le hc
      · exact h.1 b hb'

theorem sortByClock_cons (x : ContentRow) (xs : List ContentRow) :
    sortByClock (x :: xs) = insertByClock x (sortByClock xs) := rfl

theorem sortByClock_pairwise (l : List ContentRow) :
    (sortByClock l).Pairwise (fun a b => a.clock ≤ b.clock) := by
  induction l with
  | nil => simp [sortByClock]
  | cons x xs ih =>
    rw [sortByClock_cons]
    exact pairwise_insertByClock x _ ih

theorem mem_sortByClock {a : ContentRow} {l : List ContentRow} :
    a ∈ sortByClock l ↔ a ∈ l := by
  induction l with
  | nil => simp [sortByClock]
  | cons x xs ih =>
    rw [sortByClock_cons, mem_insertByClock, List.mem_cons, ih]

theorem findAllInRange_bounds (uuids : List String) (lo hi : Int) (table : List ContentRow)
    (r : ContentRow) (h : r ∈ findAllInRange uuids lo hi table) :
    lo ≤ r.clock ∧ r.clock ≤ hi := by
  unfold findAllInRange at h
  rw [mem_sortByClock, List.mem_filter] at h
  have h2 := h.2
  simp only [Bool.and_eq_true, decide_eq_true_eq] at h2
  exact ⟨h2.1.2, h2.2⟩

theorem findAllInRange_pairwise (uuids : List String) (lo hi : Int) (table : List ContentRow) :
    (findAllInRange uuids lo hi table).Pairwise (fun a b => a.clock ≤ b.clock) :=
  sortByClock_pairwise _

/-- C2: on a successful `/export`, each of the four returned record sets holds
only rows whose clock lies in the effective window `[min, max]`, each is in
ascending clock order, the returned user's `clock` is `min(true clock,
windowMax)`, and `clockInfo` reports the window and the true clock. -/
theorem export_window (maxRange : Int) (db : ExportDb) (q : ExportQuery)
    (users : List ExportedUser) (hok : exportRoute maxRange db q = Except.ok users)
    (u : ExportedUser) (hu : u ∈ users) :
    (∀ r ∈ u.clockRecords,
      exportRequestedMin q ≤ r.clock ∧ r.clock ≤ exportEffectiveMax maxRange q) ∧
    (∀ r ∈ u.audiusUsers,
      exportRequestedMin q ≤ r.clock ∧ r.clock ≤ exportEffectiveMax maxRange q) ∧
    (∀ r ∈ u.tracks,
      exportRequestedMin q ≤ r.clock ∧ r.clock ≤ exportEffectiveMax maxRange q) ∧
    (∀ r ∈ u.files,
      exportRequestedMin q ≤ r.clock ∧ r.clock ≤ exportEffectiveMax maxRange q) ∧
    (u.clockRecords.map ContentRow.clock).Pairwise (· ≤ ·) ∧
    (u.audiusUsers.map ContentRow.clock).Pairwise (· ≤ ·) ∧
    (u.tracks.map ContentRow.clock).Pairwise (· ≤ ·) ∧
    (u.files.map ContentRow.clock).Pairwise (· ≤ ·) ∧
    u.clock = min u.clockInfo.localClockMax (exportEffectiveMax maxRange q) ∧
    u.clockInfo.requestedClockRangeMin = exportRequestedMin q ∧
    u.clockInfo.requestedClockRangeMax = exportEffectiveMax maxRange q ∧
    (∃ row ∈ db.cnodeUsers, row.cnodeUserUUID = u.cnodeUserUUID ∧
      row.walletPublicKey = u.walletPublicKey ∧ u.clockInfo.localClockMax = row.clock) := by
  simp only [exportRoute] at hok
  by_cases hbad : exportEffectiveMax maxRange q ≤ exportRequestedMin q
  · rw [if_pos hbad] at hok
    exact absurd hok (by simp)
  · rw [if_neg hbad] at hok
    have husers := (Except.ok.injEq _ _).mp hok
    rw [← husers] at hu
    obtain ⟨row, hrow, rfl⟩ := List.mem_map.mp hu
    have hbounds : ∀ table : List ContentRow, ∀ r ∈ (findAllInRange
        ((db.cnodeUsers.filter (fun v => q.walletPublicKeys.contains v.walletPublicKey)).map
          (·.cnodeUserUUID))
        (exportRequestedMin q) (exportEffectiveMax maxRange q) table).filter
          (fun c => c.cnodeUserUUID == row.cnodeUserUUID),
        exportRequestedMin q ≤ r.clock ∧ r.clock ≤ exportEffectiveMax maxRange q := by
      intro table r hr
      exact findAllInRange_bounds _ _ _ table r (List.mem_filter.mp hr).1
    have hpair : ∀ table : List ContentRow, (((findAllInRange
        ((db.cnodeUsers.filter (fun v => q.walletPublicKeys.contains v.walletPublicKey)).map
          (·.cnodeUserUUID))
        (exportRequestedMin q) (exportEffectiveMax maxRange q) table).filter
          (fun c => c.cnodeUserUUID == row.cnodeUserUUID)).map ContentRow.clock).Pairwise
          (· ≤ ·) := by
      intro table
      rw [List.pairwise_map]
      exact List.Pairwise.sublist (List.filter_sublist _) (findAllInRange_pairwise _ _ _ table)
    refine ⟨hbounds db.clockRecords, hbounds db.audiusUsers, hbounds db.tracks,
      hbounds db.files, hpair db.clockRecords, hpair db.audiusUsers, hpair db.tracks,
      hpair db.files, ?_, rfl, rfl, ⟨row, (List.mem_filter.mp hrow).1, rfl, rfl, rfl⟩⟩
    show (if row.clock > exportEffectiveMax maxRange q then exportEffectiveMax maxRange q
      else row.clock) = min row.clock (exportEffectiveMax maxRange q)
    rw [min_def]
    split_ifs <;> omega

/-- Witness for C2: one user at true clock `10`, window `[3, 7]`; the lone
in-window clock record is returned, the response clock is clamped to `7`,
`localClockMax` reports `10`. -/
theorem export_window_witness :
    (∀ r ∈ ([⟨"u1", 3⟩] : List ContentRow),
      exportRequestedMin ⟨["w1"], some 3, some 7⟩ ≤ r.clock ∧
      r.clock ≤ exportEffectiveMax 100 ⟨["w1"], some 3, some 7⟩) ∧
    (([⟨"u1", 3⟩] : List ContentRow).map ContentRow.clock).Pairwise (· ≤ ·) ∧
    (7 : Int) = min 10 (exportEffectiveMax 100 ⟨["w1"], some 3, some 7⟩) := by
  have h := export_window 100
    { cnodeUsers := [⟨"u1", "w1", 10, 5⟩]
      audiusUsers := []
      tracks := []
      files := []
      clockRecords := [⟨"u1", 3⟩] }
    ⟨["w1"], some 3, some 7⟩
    [{ cnodeUserUUID := "u1"
       walletPublicKey := "w1"
       clock := 7
       latestBlockNumber := 5
       audiusUsers := []
       tracks := []
       files := []
       clockRecords := [⟨"u1", 3⟩]
       clockInfo := ⟨3, 7, 10⟩ }]
    rfl _ (List.mem_singleton.mpr rfl)
  exact ⟨h.1, h.2.2.2.2.1, h.2.2.2.2.2.2.2.2.1⟩

/-- C6 counterexample: a one-record window is rejected.  With
`maxExportClockValueRange = 10`, `clock_range_min = 5`, `clock_range_max = 5`
the effective max equals the requested min, yet the route fails with
`BadRange` (line 36 rejects `max <= min`, not only `max < min`). -/
theorem export_badRange_at_equal_bounds :
    exportRoute 10 ⟨[], [], [], [], []⟩ ⟨["0xabc"], some 5, some 5⟩ =
      Except.error ExportError.badRange ∧
    exportRequestedMin ⟨["0xabc"], some 5, some 5⟩ = 5 ∧
    exportEffectiveMax 10 ⟨["0xabc"], some 5, some 5⟩ = 5 :=
  ⟨rfl, rfl, rfl⟩

/-- C6 amended: `/export` fails with `BadRange` exactly when the effective
`clockRangeMax` is less than **or equal to** the requested `clockRangeMin`;
in particular a one-record window (`min = effective max`) is also rejected. -/
theorem export_badRange_iff (maxRange : Int) (db : ExportDb) (q : ExportQuery) :
    exportRoute maxRange db q = Except.error ExportError.badRange ↔
      exportEffectiveMax maxRange q ≤ exportRequestedMin q := by
  unfold exportRoute
  by_cases h : exportEffectiveMax maxRange q ≤ exportRequestedMin q <;> simp [h]

/-- C7 counterexample: with an empty registry list no candidate survives, yet
`select` returns normally with `primary = undefined` (here `none`) and no
secondaries; no `NoPrimaryAvailable` exception exists on this path. -/
theorem select_empty_returns_absent_primary :
    select
      { services := []
        currentVersion := ⟨1, 2, 0⟩
        whitelist := none
        blacklist := none
        syncStatus := fun _ => none
        health := fun _ => none
        numberOfNodes := 3 } true = { primary := none, secondaries := [] } := rfl

/-- C7 amended: whenever no candidate survives the allow-list, deny-list,
sync-check and health-check stages, `select` returns a result with an absent
primary (`services[0]` of an empty list, i.e. `undefined`) and an empty
secondary list, rather than raising an error. -/
theorem select_no_survivor (env : SelectEnv) (performSyncCheck : Bool)
    (h : selectSurvivors env performSyncCheck = []) :
    select env performSyncCheck = { primary := none, secondaries := [] } := by
  unfold select
  rw [h]
  simp

/-- Witness for C7 amended at the empty registry. -/
theorem select_no_survivor_witness :
    select
      { services := []
        currentVersion := ⟨1, 2, 0⟩
        whitelist := none
        blacklist := none
        syncStatus := fun _ => none
        health := fun _ => none
        numberOfNodes := 3 } true = { primary := none, secondaries := [] } :=
  select_no_survivor
    { services := []
      currentVersion := ⟨1, 2, 0⟩
      whitelist := none
      blacklist := none
      syncStatus := fun _ => none
      health := fun _ => none
      numberOfNodes := 3 } true rfl

theorem fetchBlobs_allOk (fok : String → Bool) (l : List (String × Option String))
    (h : ∀ x ∈ l, fok x.1 = true) :
    fetchBlobs fok l = (l.map (fun x => Ev.saveBlob x.1 x.2), true) := by
  induction l with
  | nil => rfl
  | cons x xs ih =>
    obtain ⟨m, fn⟩ := x
    have hm : fok m = true := h (m, fn) (List.mem_cons_self _ _)
    simp only [fetchBlobs, hm, if_true, List.map_cons]
    rw [ih (fun y hy => h y (List.mem_cons_of_mem _ hy))]

theorem fetchBlobs_isSaveBlob (fok : String → Bool) (l : List (String × Option String)) :
    ∀ e ∈ (fetchBlobs fok l).1, isSaveBlob e = true := by
  induction l with
  | nil => intro e he; simp [fetchBlobs] at he
  | cons x xs ih =>
    obtain ⟨m, fn⟩ := x
    intro e he
    by_cases hm : fok m = true
    · simp only [fetchBlobs, hm, if_true] at he
      rcases List.mem_cons.mp he with rfl | he'
      · rfl
      · exact ih e he'
    · simp only [fetchBlobs, hm, if_false] at he
      rcases List.mem_cons.mp he with rfl | he'
      · rfl
      · simp at he'

theorem mapBlob_isSaveBlob (l : List (String × Option String)) :
    ∀ e ∈ l.map (fun x => Ev.saveBlob x.1 x.2), isSaveBlob e = true := by
  intro e he
  obtain ⟨x, _, rfl⟩ := List.mem_map.mp he
  rfl

theorem append_isSaveBlob {a b : List Ev} (ha : ∀ e ∈ a, isSaveBlob e = true)
    (hb : ∀ e ∈ b, isSaveBlob e = true) : ∀ e ∈ a ++ b, isSaveBlob e = true := by
  intro e he
  rcases List.mem_append.mp he with h | h
  · exact ha e h
  · exact hb e h

theorem applyEv_saveBlob (st : List Ev × Option (List Ev)) (e : Ev)
    (he : isSaveBlob e = true) : applyEv st e = st := by
  obtain ⟨a, pending⟩ := st
  cases e <;> simp_all [isSaveBlob, applyEv]
  cases pending <;> rfl

theorem foldl_applyEv_saveBlobs (blobs : List Ev) (h : ∀ e ∈ blobs, isSaveBlob e = true)
    (st : List Ev × Option (List Ev)) : blobs.foldl applyEv st = st := by
  induction blobs generalizing st with
  | nil => rfl
  | cons e es ih =>
    rw [List.foldl_cons, applyEv_saveBlob st e (h e (List.mem_cons_self _ _))]
    exact ih (fun e' he' => h e' (List.mem_cons_of_mem _ he')) st

theorem foldl_commitFetch_saveBlobs (blobs : List Ev) (h : ∀ e ∈ blobs, isSaveBlob e = true)
    (f : Bool) : blobs.foldl commitFetchStep (false, f) = (false, f) := by
  induction blobs with
  | nil => rfl
  | cons e es ih =>
    have he := h e (List.mem_cons_self _ _)
    have hstep : commitFetchStep (false, f) e = (false, f) := by
      cases e <;> simp_all [isSaveBlob, commitFetchStep]
    rw [List.foldl_cons, hstep]
    exact ih (fun e' he' => h e' (List.mem_cons_of_mem _ he'))

theorem foldl_insertFetch_saveBlobs (blobs : List Ev) (h : ∀ e ∈ blobs, isSaveBlob e = true)
    (f : Bool) : blobs.foldl insertFetchStep (false, f) = (false, f) := by
  induction blobs with
  | nil => rfl
  | cons e es ih =>
    have he := h e (List.mem_cons_self _ _)
    have hstep : insertFetchStep (false, f) e = (false, f) := by
      cases e <;> simp_all [isSaveBlob, insertFetchStep]
    rw [List.foldl_cons, hstep]
    exact ih (fun e' he' => h e' (List.mem_cons_of_mem _ he'))

theorem lockHeldAfter_append_removeLock (t : List Ev) (w : String) :
    lockHeldAfter (t ++ [Ev.removeLock w]) w = false := by
  unfold lockHeldAfter
  rw [List.foldl_append]
  simp [lockStep]

theorem count_saveBlobs_eq_zero {blobs : List Ev} (h : ∀ e ∈ blobs, isSaveBlob e = true)
    {e : Ev} (he : isSaveBlob e = false) : blobs.count e = 0 := by
  rw [List.count_eq_zero]
  intro hmem
  rw [h e hmem] at he
  simp at he

theorem nonTrackFetchTargets_mem {l : List FetchedFile} {x : String × Option String}
    (hx : x ∈ nonTrackFetchTargets l) : ∃ f ∈ l, x.1 = f.multihash := by
  unfold nonTrackFetchTargets at hx
  obtain ⟨f, hf, hfx⟩ := List.mem_filterMap.mp hx
  refine ⟨f, hf, ?_⟩
  split_ifs at hfx
  all_goals rw [← Option.some_inj.mp hfx]

theorem processUser_not_requested (ws : List String) (L : Int) (fok : String → Bool)
    (tt ntt : List String) (rk : Option String) (u : FetchedCNodeUser)
    (hw : ws.contains u.walletPublicKey = false) :
    processUser ws L fok tt ntt rk u = ([], some .walletNotRequested) := by
  unfold processUser
  rw [if_pos (by simpa using hw)]

theorem processUser_regression (ws : List String) (L : Int) (fok : String → Bool)
    (tt ntt : List String) (rk : Option String) (u : FetchedCNodeUser)
    (hw : ws.contains u.walletPublicKey = true) (hlt : u.clock < L) :
    processUser ws L fok tt ntt rk u = ([], some .regression) := by
  unfold processUser
  rw [if_neg (by simpa using hw), if_pos hlt]

theorem processUser_noop (ws : List String) (L : Int) (fok : String → Bool)
    (tt ntt : List String) (rk : Option String) (u : FetchedCNodeUser)
    (hw : ws.contains u.walletPublicKey = true) (heq : u.clock = L) :
    processUser ws L fok tt ntt rk u = ([], none) := by
  unfold processUser
  rw [if_neg (by simpa using hw), if_neg (by omega), if_pos heq]

theorem processUser_nonContiguous (ws : List String) (L : Int) (fok : String → Bool)
    (tt ntt : List String) (rk : Option String) (u : FetchedCNodeUser)
    (hw : ws.contains u.walletPublicKey = true) (hgt : L < u.clock)
    (r : FetchedClockRecord) (hr : u.clockRecords.head? = some r)
    (hne : r.clock ≠ L + 1) :
    processUser ws L fok tt ntt rk u = ([], some .nonContiguous) := by
  unfold processUser
  rw [if_neg (by simpa using hw), if_neg (by omega), if_neg (by omega),
    if_pos (by rw [hr]; simpa using hne)]

theorem processUser_success (ws : List String) (L : Int) (fok : String → Bool)
    (tt ntt : List String) (rk : Option String) (u : FetchedCNodeUser)
    (hw : ws.contains u.walletPublicKey = true) (hgt : L < u.clock)
    (hcont : ∀ r, u.clockRecords.head? = some r → r.clock = L + 1)
    (hfetch : ∀ f ∈ u.files, fok f.multihash = true) :
    processUser ws L fok tt ntt rk u =
      (txPrefix u ++
        ((u.files.filter (fun f => tt.contains f.ftype)).map
          (fun f => Ev.saveBlob f.multihash none)) ++
        ((nonTrackFetchTargets (u.files.filter (fun f => ntt.contains f.ftype))).map
          (fun x => Ev.saveBlob x.1 x.2)) ++
        txInserts (u.files.filter (fun f => tt.contains f.ftype))
          (u.files.filter (fun f => ntt.contains f.ftype)) u ++
        unlockEvs rk, none) := by
  have hc4 : ¬ ((match u.clockRecords.head? with
      | some r => decide (r.clock ≠ L + 1)
      | none => false) = true) := by
    cases h : u.clockRecords.head? with
    | none => simp
    | some r => simp [hcont r h]
  have htf : fetchBlobs fok ((u.files.filter (fun f => tt.contains f.ftype)).map
      (fun f => (f.multihash, (none : Option String)))) =
      (((u.files.filter (fun f => tt.contains f.ftype)).map
        (fun f => (f.multihash, (none : Option String)))).map
          (fun x => Ev.saveBlob x.1 x.2), true) :=
    fetchBlobs_allOk _ _ (by
      intro x hx
      obtain ⟨f, hf, rfl⟩ := List.mem_map.mp hx
      exact hfetch f (List.mem_filter.mp hf).1)
  have hntf : fetchBlobs fok
      (nonTrackFetchTargets (u.files.filter (fun f => ntt.contains f.ftype))) =
      ((nonTrackFetchTargets (u.files.filter (fun f => ntt.contains f.ftype))).map
        (fun x => Ev.saveBlob x.1 x.2), true) :=
    fetchBlobs_allOk _ _ (by
      intro x hx
      obtain ⟨f, hf, hfx⟩ := nonTrackFetchTargets_mem hx
      rw [hfx]
      exact hfetch f (List.mem_filter.mp hf).1)
  unfold processUser
  rw [if_neg (by simpa using hw), if_neg (by omega), if_neg (by omega), if_neg hc4]
  simp only [htf, hntf, not_true, if_false, ite_false, List.map_map]
  simp [Function.comp_def]

/-- On the hypotheses pinning a well-formed single-user response, `_nodesync`
is the lock-wrapped run of `processUser` on the one fetched user. -/
theorem nodesync_single_user (env : SyncEnv) (w : String) (u : FetchedCNodeUser)
    (hlock : env.lockHeld w = false) (hstatus : env.resp.status = 200)
    (hcu : env.resp.cnodeUsers = some [u]) (hipfs : env.resp.ipfsAddressesPresent = true) :
    nodesync env [w] =
      { trace := Ev.setLock w ::
          ((processUser [w] (env.localCNodeUserClock.getD (-1)) env.fetchOk
            env.trackTypes env.nonTrackTypes (some w) u).1 ++ [Ev.removeLock w])
        result := (processUser [w] (env.localCNodeUserClock.getD (-1)) env.fetchOk
            env.trackTypes env.nonTrackTypes (some w) u).2 } := by
  unfold nodesync
  simp only [acquireLocks, hlock, processUsers, hstatus, hcu, hipfs]
  cases hr : (processUser [w] (env.localCNodeUserClock.getD (-1)) env.fetchOk
      env.trackTypes env.nonTrackTypes (some w) u).2 <;>
    simp [hr, processUsers]

theorem appliedWrites_fail_trace (w : String) (u : FetchedCNodeUser) (blobs : List Ev)
    (hb : ∀ e ∈ blobs, isSaveBlob e = true) :
    appliedWrites (Ev.setLock w ::
      (txPrefix u ++ blobs ++ catchEvs (some w) ++ [Ev.removeLock w])) = [] := by
  unfold appliedWrites
  simp only [txPrefix, catchEvs, unlockEvs, List.foldl_append, List.foldl_cons, List.foldl_nil]
  simp only [foldl_applyEv_saveBlobs _ hb]
  rfl

theorem appliedWrites_success_trace (w : String) (u : FetchedCNodeUser)
    (tf ntf : List FetchedFile) (blobs : List Ev)
    (hb : ∀ e ∈ blobs, isSaveBlob e = true) :
    appliedWrites (Ev.setLock w ::
      (txPrefix u ++ blobs ++ txInserts tf ntf u ++ unlockEvs (some w) ++
        [Ev.removeLock w])) =
      [Ev.upsertCNodeUser u.cnodeUserUUID u.walletPublicKey u.latestBlockNumber u.clock
        u.createdAt,
       Ev.bulkCreateClockRecords u.clockRecords,
       Ev.bulkCreateFilesNonTrack ntf,
       Ev.bulkCreateTracks u.tracks,
       Ev.bulkCreateFilesTrack tf,
       Ev.bulkCreateAudiusUsers u.audiusUsers] := by
  unfold appliedWrites
  simp only [txPrefix, txInserts, unlockEvs, List.foldl_append, List.foldl_cons, List.foldl_nil]
  simp only [foldl_applyEv_saveBlobs _ hb]
  rfl

theorem txBalanced_fail_trace (w : String) (u : FetchedCNodeUser) (blobs : List Ev)
    (hb : ∀ e ∈ blobs, isSaveBlob e = true) :
    txBalanced (Ev.setLock w ::
      (txPrefix u ++ blobs ++ catchEvs (some w) ++ [Ev.removeLock w])) = true := by
  have h1 : blobs.count Ev.beginTx = 0 := count_saveBlobs_eq_zero hb rfl
  have h2 : blobs.count Ev.commitTx = 0 := count_saveBlobs_eq_zero hb rfl
  have h3 : blobs.count Ev.rollbackTx = 0 := count_saveBlobs_eq_zero hb rfl
  unfold txBalanced
  simp [txPrefix, catchEvs, unlockEvs, List.count_append, List.count_cons, h1, h2, h3]

theorem txBalanced_success_trace (w : String) (u : FetchedCNodeUser)
    (tf ntf : List FetchedFile) (blobs : List Ev)
    (hb : ∀ e ∈ blobs, isSaveBlob e = true) :
    txBalanced (Ev.setLock w ::
      (txPrefix u ++ blobs ++ txInserts tf ntf u ++ unlockEvs (some w) ++
        [Ev.removeLock w])) = true := by
  have h1 : blobs.count Ev.beginTx = 0 := count_saveBlobs_eq_zero hb rfl
  have h2 : blobs.count Ev.commitTx = 0 := count_saveBlobs_eq_zero hb rfl
  have h3 : blobs.count Ev.rollbackTx = 0 := count_saveBlobs_eq_zero hb rfl
  unfold txBalanced
  simp [txPrefix, txInserts, unlockEvs, List.count_append, List.count_cons, h1, h2, h3]

theorem fetchAfterCommit_fail_trace (w : String) (u : FetchedCNodeUser) (blobs : List Ev)
    (hb : ∀ e ∈ blobs, isSaveBlob e = true) :
    fetchAfterCommit (Ev.setLock w ::
      (txPrefix u ++ blobs ++ catchEvs (some w) ++ [Ev.removeLock w])) = false := by
  unfold fetchAfterCommit
  simp only [txPrefix, catchEvs, unlockEvs, List.foldl_append, List.foldl_cons, List.foldl_nil,
    commitFetchStep]
  simp only [foldl_commitFetch_saveBlobs _ hb]

theorem fetchAfterCommit_success_trace (w : String) (u : FetchedCNodeUser)
    (tf ntf : List FetchedFile) (blobs : List Ev)
    (hb : ∀ e ∈ blobs, isSaveBlob e = true) :
    fetchAfterCommit (Ev.setLock w ::
      (txPrefix u ++ blobs ++ txInserts tf ntf u ++ unlockEvs (some w) ++
        [Ev.removeLock w])) = false := by
  unfold fetchAfterCommit
  simp only [txPrefix, txInserts, unlockEvs, List.foldl_append, List.foldl_cons, List.foldl_nil,
    commitFetchStep]
  simp only [foldl_commitFetch_saveBlobs _ hb]

theorem fetchAfterRowInsert_fail_trace (w : String) (u : FetchedCNodeUser) (blobs : List Ev)
    (hb : ∀ e ∈ blobs, isSaveBlob e = true) :
    fetchAfterRowInsert (Ev.setLock w ::
      (txPrefix u ++ blobs ++ catchEvs (some w) ++ [Ev.removeLock w])) = false := by
  unfold fetchAfterRowInsert
  simp only [txPrefix, catchEvs, unlockEvs, List.foldl_append, List.foldl_cons, List.foldl_nil,
    insertFetchStep]
  simp only [foldl_insertFetch_saveBlobs _ hb]

theorem fetchAfterRowInsert_success_trace (w : String) (u : FetchedCNodeUser)
    (tf ntf : List FetchedFile) (blobs : List Ev)
    (hb : ∀ e ∈ blobs, isSaveBlob e = true) :
    fetchAfterRowInsert (Ev.setLock w ::
      (txPrefix u ++ blobs ++ txInserts tf ntf u ++ unlockEvs (some w) ++
        [Ev.removeLock w])) = false := by
  unfold fetchAfterRowInsert
  simp only [txPrefix, txInserts, unlockEvs, List.foldl_append, List.foldl_cons, List.foldl_nil,
    insertFetchStep]
  simp only [foldl_insertFetch_saveBlobs _ hb]

/-- Lemma: `processUser` ends in one of three shapes: no events, a rolled-back
transaction after a failed blob fetch, or a committed transaction; all fetch
events in the transaction are blob saves. -/
theorem processUser_cases (ws : List String) (L : Int) (fok : String → Bool)
    (tt ntt : List String) (rk : Option String) (u : FetchedCNodeUser) :
    (∃ res, processUser ws L fok tt ntt rk u = ([], res)) ∨
    (∃ blobs, (∀ e ∈ blobs, isSaveBlob e = true) ∧
      processUser ws L fok tt ntt rk u =
        (txPrefix u ++ blobs ++ catchEvs rk, some .blobFetchFailed)) ∨
    (∃ blobs tf ntf, (∀ e ∈ blobs, isSaveBlob e = true) ∧
      processUser ws L fok tt ntt rk u =
        (txPrefix u ++ blobs ++ txInserts tf ntf u ++ unlockEvs rk, none)) := by
  unfold processUser
  split
  · exact Or.inl ⟨_, rfl⟩
  split
  · exact Or.inl ⟨_, rfl⟩
  split
  · exact Or.inl ⟨_, rfl⟩
  split
  · exact Or.inl ⟨_, rfl⟩
  dsimp only
  split
  · exact Or.inr (Or.inl ⟨_, fetchBlobs_isSaveBlob _ _, rfl⟩)
  split
  · refine Or.inr (Or.inl
      ⟨(fetchBlobs fok ((u.files.filter (fun f => tt.contains f.ftype)).map
          (fun f => (f.multihash, (none : Option String))))).1 ++
        (fetchBlobs fok (nonTrackFetchTargets
          (u.files.filter (fun f => ntt.contains f.ftype)))).1,
       append_isSaveBlob (fetchBlobs_isSaveBlob _ _) (fetchBlobs_isSaveBlob _ _), ?_⟩)
    rw [List.append_assoc (txPrefix u)]
  · refine Or.inr (Or.inr
      ⟨(fetchBlobs fok ((u.files.filter (fun f => tt.contains f.ftype)).map
          (fun f => (f.multihash, (none : Option String))))).1 ++
        (fetchBlobs fok (nonTrackFetchTargets
          (u.files.filter (fun f => ntt.contains f.ftype)))).1,
       u.files.filter (fun f => tt.contains f.ftype),
       u.files.filter (fun f => ntt.contains f.ftype),
       append_isSaveBlob (fetchBlobs_isSaveBlob _ _) (fetchBlobs_isSaveBlob _ _), ?_⟩)
    rw [List.append_assoc (txPrefix u)]

/-- For a single-wallet run against a response with at most one fetched user,
`_nodesync` produces one of four trace shapes. -/
theorem nodesync_single_cases (env : SyncEnv) (w : String)
    (hlen : (env.resp.cnodeUsers.getD []).length ≤ 1) :
    nodesync env [w] = { trace := [], result := some .locked } ∨
    (∃ res, nodesync env [w] =
      { trace := [Ev.setLock w, Ev.removeLock w], result := res }) ∨
    (∃ u blobs, (∀ b ∈ blobs, isSaveBlob b = true) ∧
      nodesync env [w] =
        { trace := Ev.setLock w ::
            (txPrefix u ++ blobs ++ catchEvs (some w) ++ [Ev.removeLock w])
          result := some .blobFetchFailed }) ∨
    (∃ u blobs tf ntf, (∀ b ∈ blobs, isSaveBlob b = true) ∧
      nodesync env [w] =
        { trace := Ev.setLock w ::
            (txPrefix u ++ blobs ++ txInserts tf ntf u ++ unlockEvs (some w) ++
              [Ev.removeLock w])
          result := none }) := by
  by_cases hlock : env.lockHeld w = true
  · left
    unfold nodesync acquireLocks
    simp [hlock]
  · have hlock' : env.lockHeld w = false := by simpa using hlock
    by_cases hstatus : env.resp.status = 200
    · cases hcu : env.resp.cnodeUsers with
      | none =>
        right; left
        refine ⟨some .malformedResponse, ?_⟩
        simp [nodesync, acquireLocks, hlock', hstatus, hcu]
      | some us =>
        by_cases hipfs : env.resp.ipfsAddressesPresent = true
        · cases us with
          | nil =>
            right; left
            refine ⟨none, ?_⟩
            simp [nodesync, acquireLocks, processUsers, hlock', hstatus, hcu, hipfs]
          | cons u rest =>
            cases rest with
            | nil =>
              rw [nodesync_single_user env w u hlock' hstatus hcu hipfs]
              rcases processUser_cases [w] (env.localCNodeUserClock.getD (-1)) env.fetchOk
                  env.trackTypes env.nonTrackTypes (some w) u with
                ⟨res, hpu⟩ | ⟨blobs, hbb, hpu⟩ | ⟨blobs, tf, ntf, hbb, hpu⟩
              · right; left
                refine ⟨res, ?_⟩
                rw [hpu]
                rfl
              · right; right; left
                exact ⟨u, blobs, hbb, by rw [hpu]⟩
              · right; right; right
                exact ⟨u, blobs, tf, ntf, hbb, by rw [hpu]⟩
            | cons u2 rest2 =>
              exfalso
              rw [hcu] at hlen
              simp at hlen
        · have hipfs' : env.resp.ipfsAddressesPresent = false := by simpa using hipfs
          right; left
          refine ⟨some .malformedResponse, ?_⟩
          simp [nodesync, acquireLocks, hlock', hstatus, hcu, hipfs']
    · right; left
      refine ⟨some .exportFailed, ?_⟩
      simp [nodesync, acquireLocks, hlock', hstatus]

theorem mapTrackBlob_isSaveBlob (l : List FetchedFile) :
    ∀ e ∈ l.map (fun f => Ev.saveBlob f.multihash none), isSaveBlob e = true := by
  intro e he
  obtain ⟨f, _, rfl⟩ := List.mem_map.mp he
  rfl

/-- C4: the import's progress check — a fetched clock below the local maximum
fails with `Regression` and applies nothing; an equal clock is a successful
no-op touching only the sync lock; rows are applied only when the fetched
clock exceeds the local maximum. -/
theorem import_progress_check (env : SyncEnv) (w : String) (u : FetchedCNodeUser)
    (hlock : env.lockHeld w = false) (hstatus : env.resp.status = 200)
    (hcu : env.resp.cnodeUsers = some [u]) (hipfs : env.resp.ipfsAddressesPresent = true)
    (hw : u.walletPublicKey = w) :
    (u.clock < env.localCNodeUserClock.getD (-1) →
      (nodesync env [w]).result = some SyncError.regression ∧
      appliedWrites (nodesync env [w]).trace = []) ∧
    (u.clock = env.localCNodeUserClock.getD (-1) →
      (nodesync env [w]).result = none ∧
      (nodesync env [w]).trace = [Ev.setLock w, Ev.removeLock w] ∧
      appliedWrites (nodesync env [w]).trace = []) ∧
    (appliedWrites (nodesync env [w]).trace ≠ [] →
      env.localCNodeUserClock.getD (-1) < u.clock) := by
  have hws : ([w].contains u.walletPublicKey) = true := by
    subst hw; simp
  rw [nodesync_single_user env w u hlock hstatus hcu hipfs]
  refine ⟨?_, ?_, ?_⟩
  · intro hlt
    rw [processUser_regression _ _ _ _ _ _ _ hws hlt]
    exact ⟨rfl, rfl⟩
  · intro heq
    rw [processUser_noop _ _ _ _ _ _ _ hws heq]
    exact ⟨rfl, rfl, rfl⟩
  · intro happ
    by_contra hnot
    push_neg at hnot
    rcases lt_or_eq_of_le hnot with hlt | heqq
    · rw [processUser_regression _ _ _ _ _ _ _ hws hlt] at happ
      exact happ rfl
    · rw [processUser_noop _ _ _ _ _ _ _ hws heqq] at happ
      exact happ rfl

/-- Witness for C4: with local clock `5` and fetched clock `2` the run fails
with `Regression` and applies nothing; with local clock `2` it is a no-op. -/
theorem import_progress_check_witness :
    ((nodesync regressionEnv ["0xabc"]).result = some SyncError.regression ∧
      appliedWrites (nodesync regressionEnv ["0xabc"]).trace = []) ∧
    ((nodesync noopEnv ["0xabc"]).result = none ∧
      (nodesync noopEnv ["0xabc"]).trace = [Ev.setLock "0xabc", Ev.removeLock "0xabc"] ∧
      appliedWrites (nodesync noopEnv ["0xabc"]).trace = []) :=
  ⟨(import_progress_check regressionEnv "0xabc" sampleUser rfl rfl rfl rfl rfl).1 (by decide),
   (import_progress_check noopEnv "0xabc" sampleUser rfl rfl rfl rfl rfl).2.1 (by decide)⟩

/-- C1 counterexample: a run whose clock records start at `localMax + 1` but
then jump by `2` (`[0, 2]`) is **not** rejected as `NonContiguous`: the import
succeeds and applies rows, because line 337 only checks the first record. -/
theorem import_gap_accepted :
    gapUser.clockRecords.map FetchedClockRecord.clock = [0, 2] ∧
    (nodesync gapEnv ["0xabc"]).result = none ∧
    (nodesync gapEnv ["0xabc"]).result ≠ some SyncError.nonContiguous ∧
    appliedWrites (nodesync gapEnv ["0xabc"]).trace ≠ [] := by decide

/-- C1 amended: the import fails with `NonContiguous` (applying no rows) when
the first returned clock record exists and its clock differs from
`localMax + 1`; gaps between subsequent records are not validated. -/
theorem import_noncontiguous_start (env : SyncEnv) (w : String) (u : FetchedCNodeUser)
    (hlock : env.lockHeld w = false) (hstatus : env.resp.status = 200)
    (hcu : env.resp.cnodeUsers = some [u]) (hipfs : env.resp.ipfsAddressesPresent = true)
    (hw : u.walletPublicKey = w)
    (hgt : env.localCNodeUserClock.getD (-1) < u.clock)
    (r : FetchedClockRecord) (hhead : u.clockRecords.head? = some r)
    (hne : r.clock ≠ env.localCNodeUserClock.getD (-1) + 1) :
    (nodesync env [w]).result = some SyncError.nonContiguous ∧
    appliedWrites (nodesync env [w]).trace = [] ∧
    (nodesync env [w]).trace = [Ev.setLock w, Ev.removeLock w] := by
  have hws : ([w].contains u.walletPublicKey) = true := by
    subst hw; simp
  rw [nodesync_single_user env w u hlock hstatus hcu hipfs,
    processUser_nonContiguous _ _ _ _ _ _ _ hws hgt r hhead hne]
  exact ⟨rfl, rfl, rfl⟩

/-- Witness for C1 amended: local user absent (`localMax = -1`), records
starting at clock `1` instead of `0` are refused with `NonContiguous`. -/
theorem import_noncontiguous_start_witness :
    (nodesync startGapEnv ["0xabc"]).result = some SyncError.nonContiguous ∧
    appliedWrites (nodesync startGapEnv ["0xabc"]).trace = [] ∧
    (nodesync startGapEnv ["0xabc"]).trace = [Ev.setLock "0xabc", Ev.removeLock "0xabc"] :=
  import_noncontiguous_start startGapEnv "0xabc" startGapUser rfl rfl rfl rfl rfl
    (by decide) ⟨1⟩ rfl (by decide)

/-- C5: a successful applying import commits, inside one transaction, exactly
the upsert of the `CNodeUser` row (with UUID, wallet, latest block number,
clock and `createdAt` from the fetched user), then the clock records, then the
non-track files, then the tracks, then the track files, then the audius-user
rows, in that order. -/
theorem import_write_order (env : SyncEnv) (w : String) (u : FetchedCNodeUser)
    (hlock : env.lockHeld w = false) (hstatus : env.resp.status = 200)
    (hcu : env.resp.cnodeUsers = some [u]) (hipfs : env.resp.ipfsAddressesPresent = true)
    (hw : u.walletPublicKey = w)
    (hgt : env.localCNodeUserClock.getD (-1) < u.clock)
    (hcont : ∀ r, u.clockRecords.head? = some r →
      r.clock = env.localCNodeUserClock.getD (-1) + 1)
    (hfetch : ∀ f ∈ u.files, env.fetchOk f.multihash = true) :
    (nodesync env [w]).result = none ∧
    appliedWrites (nodesync env [w]).trace =
      [Ev.upsertCNodeUser u.cnodeUserUUID u.walletPublicKey u.latestBlockNumber u.clock
        u.createdAt,
       Ev.bulkCreateClockRecords u.clockRecords,
       Ev.bulkCreateFilesNonTrack (u.files.filter (fun f => env.nonTrackTypes.contains f.ftype)),
       Ev.bulkCreateTracks u.tracks,
       Ev.bulkCreateFilesTrack (u.files.filter (fun f => env.trackTypes.contains f.ftype)),
       Ev.bulkCreateAudiusUsers u.audiusUsers] ∧
    (nodesync env [w]).trace.count Ev.beginTx = 1 ∧
    (nodesync env [w]).trace.count Ev.commitTx = 1 := by
  have hws : ([w].contains u.walletPublicKey) = true := by
    subst hw; simp
  rw [nodesync_single_user env w u hlock hstatus hcu hipfs,
    processUser_success _ _ _ _ _ _ _ hws hgt hcont hfetch]
  have hA := mapTrackBlob_isSaveBlob (u.files.filter (fun f => env.trackTypes.contains f.ftype))
  have hB := mapBlob_isSaveBlob
    (nonTrackFetchTargets (u.files.filter (fun f => env.nonTrackTypes.contains f.ftype)))
  refine ⟨rfl, ?_, ?_, ?_⟩
  · unfold appliedWrites
    simp only [txPrefix, txInserts, unlockEvs, List.foldl_append, List.foldl_cons,
      List.foldl_nil]
    simp only [foldl_applyEv_saveBlobs _ hA, foldl_applyEv_saveBlobs _ hB]
    rfl
  · have hA0 := count_saveBlobs_eq_zero hA (e := Ev.beginTx) rfl
    have hB0 := count_saveBlobs_eq_zero hB (e := Ev.beginTx) rfl
    simp only [txPrefix, txInserts, unlockEvs, List.count_append, List.count_cons,
      List.count_nil, hA0, hB0]
    simp
  · have hA0 := count_saveBlobs_eq_zero hA (e := Ev.commitTx) rfl
    have hB0 := count_saveBlobs_eq_zero hB (e := Ev.commitTx) rfl
    simp only [txPrefix, txInserts, unlockEvs, List.count_append, List.count_cons,
      List.count_nil, hA0, hB0]
    simp

/-- Witness for C5 at `sampleEnv`. -/
theorem import_write_order_witness :
    (nodesync sampleEnv ["0xabc"]).result = none ∧
    appliedWrites (nodesync sampleEnv ["0xabc"]).trace =
      [Ev.upsertCNodeUser sampleUser.cnodeUserUUID sampleUser.walletPublicKey
        sampleUser.latestBlockNumber sampleUser.clock sampleUser.createdAt,
       Ev.bulkCreateClockRecords sampleUser.clockRecords,
       Ev.bulkCreateFilesNonTrack
        (sampleUser.files.filter (fun f => sampleEnv.nonTrackTypes.contains f.ftype)),
       Ev.bulkCreateTracks sampleUser.tracks,
       Ev.bulkCreateFilesTrack
        (sampleUser.files.filter (fun f => sampleEnv.trackTypes.contains f.ftype)),
       Ev.bulkCreateAudiusUsers sampleUser.audiusUsers] ∧
    (nodesync sampleEnv ["0xabc"]).trace.count Ev.beginTx = 1 ∧
    (nodesync sampleEnv ["0xabc"]).trace.count Ev.commitTx = 1 :=
  import_write_order sampleEnv "0xabc" sampleUser rfl rfl rfl rfl rfl (by decide)
    (fun r hr => by
      rw [show sampleUser.clockRecords.head? = some ⟨0⟩ from rfl] at hr
      rw [← Option.some_inj.mp hr]
      decide)
    (by decide)

/-- C3: on every single-wallet import run against a response carrying at most
one user, the requested wallet's sync lock is free when the run returns, every
opened transaction was committed or rolled back, and a run that surfaces an
error commits no database writes. -/
theorem import_rollback_release (env : SyncEnv) (w : String)
    (hlen : (env.resp.cnodeUsers.getD []).length ≤ 1) :
    lockHeldAfter (nodesync env [w]).trace w = false ∧
    txBalanced (nodesync env [w]).trace = true ∧
    ((nodesync env [w]).result.isSome → appliedWrites (nodesync env [w]).trace = []) := by
  rcases nodesync_single_cases env w hlen with
    h | ⟨res, h⟩ | ⟨u, blobs, hb, h⟩ | ⟨u, blobs, tf, ntf, hb, h⟩ <;> rw [h]
  · exact ⟨rfl, rfl, fun _ => rfl⟩
  · refine ⟨?_, rfl, fun _ => rfl⟩
    simp [lockHeldAfter, lockStep]
  · refine ⟨?_, txBalanced_fail_trace w u blobs hb,
      fun _ => appliedWrites_fail_trace w u blobs hb⟩
    rw [← List.cons_append]
    exact lockHeldAfter_append_removeLock _ w
  · refine ⟨?_, txBalanced_success_trace w u tf ntf blobs hb,
      fun hsome => absurd hsome (by simp)⟩
    rw [← List.cons_append]
    exact lockHeldAfter_append_removeLock _ w

/-- Witness for C3 at `sampleEnv`. -/
theorem import_rollback_release_witness :
    lockHeldAfter (nodesync sampleEnv ["0xabc"]).trace "0xabc" = false ∧
    txBalanced (nodesync sampleEnv ["0xabc"]).trace = true ∧
    ((nodesync sampleEnv ["0xabc"]).result.isSome →
      appliedWrites (nodesync sampleEnv ["0xabc"]).trace = []) :=
  import_rollback_release sampleEnv "0xabc" (by decide)

/-- C8 counterexample: in a normal successful import the transaction is opened
**before** the blob fetches, so network I/O does happen while the final
transaction is open. -/
theorem import_fetch_inside_tx :
    fetchDuringOpenTx (nodesync sampleEnv ["0xabc"]).trace = true ∧
    (nodesync sampleEnv ["0xabc"]).result = none := by decide

/-- C8 amended: the transaction is opened before blob fetching (fetches occur
while it is open), but on every single-wallet run with at most one fetched
user no blob fetch happens after the commit, nor after any file/track/user
row insert: all referenced blobs are on disk before the rows are inserted and
before the transaction commits. -/
theorem import_fetch_before_commit (env : SyncEnv) (w : String)
    (hlen : (env.resp.cnodeUsers.getD []).length ≤ 1) :
    fetchAfterCommit (nodesync env [w]).trace = false ∧
    fetchAfterRowInsert (nodesync env [w]).trace = false := by
  rcases nodesync_single_cases env w hlen with
    h | ⟨res, h⟩ | ⟨u, blobs, hb, h⟩ | ⟨u, blobs, tf, ntf, hb, h⟩ <;> rw [h]
  · exact ⟨rfl, rfl⟩
  · exact ⟨rfl, rfl⟩
  · exact ⟨fetchAfterCommit_fail_trace w u blobs hb,
      fetchAfterRowInsert_fail_trace w u blobs hb⟩
  · exact ⟨fetchAfterCommit_success_trace w u tf ntf blobs hb,
      fetchAfterRowInsert_success_trace w u tf ntf blobs hb⟩

/-- Witness for C8 amended at `sampleEnv`. -/
theorem import_fetch_before_commit_witness :
    fetchAfterCommit (nodesync sampleEnv ["0xabc"]).trace = false ∧
    fetchAfterRowInsert (nodesync sampleEnv ["0xabc"]).trace = false :=
  import_fetch_before_commit sampleEnv "0xabc" (by decide)

/-- C9: `/sync` rejects an empty or multi-wallet request with `BadRequest`
before taking any lock or doing any import work; a single-wallet request is
never rejected for its wallet count. -/
theorem syncRoute_wallet_count (env : SyncEnv) (wallets : List String) (immediate : Bool) :
    (wallets.length ≠ 1 →
      syncRoute env wallets immediate =
        { response := .badRequest, trace := [], scheduled := [] }) ∧
    (wallets.length = 1 → (syncRoute env wallets immediate).response ≠ .badRequest) := by
  cases wallets with
  | nil =>
    exact ⟨fun _ => rfl, fun h => by simp at h⟩
  | cons w ws =>
    cases ws with
    | nil =>
      refine ⟨fun h => by simp at h, fun _ => ?_⟩
      by_cases him : immediate
      · simp only [syncRoute, him]
        norm_num
        cases hr : (nodesync env [w]).result <;> simp [hr]
      · simp [syncRoute, him]
    | cons w2 ws2 =>
      refine ⟨fun _ => ?_, fun h => by simp at h⟩
      unfold syncRoute
      rw [if_neg (by simp), if_pos (by simp)]

/-- Witness for C9: the empty request is rejected, a single-wallet request is
not. -/
theorem syncRoute_wallet_count_witness :
    syncRoute sampleEnv [] true =
      { response := .badRequest, trace := [], scheduled := [] } ∧
    (syncRoute sampleEnv ["0xabc"] true).response ≠ .badRequest :=
  ⟨(syncRoute_wallet_count sampleEnv [] true).1 (by decide),
   (syncRoute_wallet_count sampleEnv ["0xabc"] true).2 rfl⟩

end Audius
